import Mathlib

/-!
# Verification of the SampleGrid occupancy-estimation core (src/domains/samplegrid.rs)

A shallow embedding of the belief-grid core: a per-cell one-dimensional
Kalman estimator, a grid of such estimators plus two boolean bitmaps
(the stochastic realization and the fixed ground truth), localized bitmap
synchronization, Gaussian smoothing, stochastic sampling and measurement
feedback.

Numeric modelling:
* `F32` is an exact model of IEEE-754 binary32 values in their normal
  range, represented as dyadic rationals `n / 2^k` with round-to-nearest,
  ties-to-even rounding after every operation.  `KalmanNode32.update` is
  the f32-exact embedding of the estimator update; it settles the literal
  f32 fixtures.
* The grid-level model (`KalmanNode`, `SampleGrid`) carries exact rational
  scalars; the algebraic and frame claims about the grid are settled there.
* The external random draw (rand::random) is passed as an explicit
  uniform input in `[0,1)`.

Code of the repository that is not under src/ (the packed bitmap, the
text-map parser and the convolution utilities) is modelled from the
specification's interface descriptions; each such definition carries a
doc comment starting with "Modelled from the spec".
-/

set_option maxRecDepth 100000

/-! ## Exact binary32 arithmetic (dyadic rationals with f32 rounding) -/

/-- Does `2 ^ e ≤ N / D` hold, for `N D : ℤ` with `D > 0`? -/
def le2pow (N D e : ℤ) : Bool :=
  if 0 ≤ e then decide (D * 2 ^ e.toNat ≤ N) else decide (D ≤ N * 2 ^ (-e).toNat)

/-- Fuel-bounded binary search for the exponent interval of `N / D`. -/
def ilogGo (N D : ℤ) : ℕ → ℤ → ℤ → ℤ
  | 0, lo, _ => lo
  | f + 1, lo, hi =>
    let mid := (lo + hi).ediv 2
    if le2pow N D mid then ilogGo N D f mid hi else ilogGo N D f lo mid

/-- Floor of the base-2 logarithm of the positive fraction `N / D`
(correct throughout the binary32 normal range). -/
def ilog2 (N D : ℤ) : ℤ := ilogGo N D 10 (-150) 152

/-- A binary32 value in the normal range, as the dyadic rational `n / 2^k`. -/
structure F32 where
  n : ℤ
  k : ℕ
deriving DecidableEq

/-- Round the fraction `N / D` (`D > 0`) to the nearest integer,
ties to even. -/
def rndHalfEven (N D : ℤ) : ℤ :=
  let q := Int.ediv N D
  let r := Int.emod N D
  if 2 * r < D then q else if D < 2 * r then q + 1 else if Int.emod q 2 = 0 then q else q + 1

/-- Round the positive fraction `N / D` to the nearest binary32 value
(24-bit significand, round to nearest, ties to even). -/
def f32pos (N D : ℤ) : F32 :=
  let e := ilog2 N D
  let E := e - 23
  let m := if 0 ≤ E then rndHalfEven N (D * 2 ^ E.toNat) else rndHalfEven (N * 2 ^ (-E).toNat) D
  if 0 ≤ E then ⟨m * 2 ^ E.toNat, 0⟩ else ⟨m, (-E).toNat⟩

/-- Round an arbitrary fraction `N / D` to the nearest binary32 value. -/
def f32round (N D : ℤ) : F32 :=
  let N2 := if D < 0 then -N else N
  let D2 := if D < 0 then -D else D
  if D2 = 0 then ⟨0, 0⟩
  else if N2 = 0 then ⟨0, 0⟩
  else if N2 < 0 then
    let p := f32pos (-N2) D2
    ⟨-p.n, p.k⟩
  else f32pos N2 D2

/-- binary32 addition: exact dyadic sum, then f32 rounding. -/
def F32.add (a b : F32) : F32 := f32round (a.n * 2 ^ b.k + b.n * 2 ^ a.k) (2 ^ (a.k + b.k))

/-- binary32 subtraction: exact dyadic difference, then f32 rounding. -/
def F32.sub (a b : F32) : F32 := f32round (a.n * 2 ^ b.k - b.n * 2 ^ a.k) (2 ^ (a.k + b.k))

/-- binary32 multiplication: exact dyadic product, then f32 rounding. -/
def F32.mul (a b : F32) : F32 := f32round (a.n * b.n) (2 ^ (a.k + b.k))

/-- binary32 division: exact quotient, then f32 rounding. -/
def F32.div (a b : F32) : F32 := f32round (a.n * 2 ^ b.k) (b.n * 2 ^ a.k)

/-- The binary32 value of the decimal literal `a * 10^(-b)` (what the Rust
compiler stores for an `f32` decimal literal). -/
def F32.lit (a : ℤ) (b : ℕ) : F32 := f32round a (10 ^ b)

/-- The binary32 value 1.0. -/
def F32.one : F32 := F32.lit 1 0

/-! ## The scalar estimator, f32-exact (KalmanNode, src lines 168-187) -/

/-- The 1-dimensional Kalman filter node of the source, with f32-exact
state and covariance. -/
structure KalmanNode32 where
  state : F32
  covariance : F32
deriving DecidableEq

/-- f32-exact embedding of KalmanNode::update: gain, state and covariance
are computed with binary32 arithmetic, and the new state is returned
alongside the updated node (the Rust method mutates and returns the state). -/
def KalmanNode32.update (node : KalmanNode32) (measurement measurement_covariance : F32) :
    KalmanNode32 × F32 :=
  let kalman_gain := node.covariance.div (node.covariance.add measurement_covariance)
  let state := node.state.add (kalman_gain.mul (measurement.sub node.state))
  let covariance := (F32.one.sub kalman_gain).mul node.covariance
  (⟨state, covariance⟩, state)

/-! ## The scalar estimator, exact arithmetic (for the algebraic claims) -/

/-- The 1-dimensional Kalman filter node of the source with exact rational
scalars: the idealized-arithmetic reading of the same two fields. -/
structure KalmanNode where
  state : ℚ
  covariance : ℚ
deriving DecidableEq

instance : Inhabited KalmanNode := ⟨⟨0, 1⟩⟩

/-- Exact-arithmetic embedding of KalmanNode::update (the same three
formula lines of the source, over ℚ). -/
def KalmanNode.update (node : KalmanNode) (measurement measurement_covariance : ℚ) :
    KalmanNode × ℚ :=
  let kalman_gain := node.covariance / (node.covariance + measurement_covariance)
  let state := node.state + kalman_gain * (measurement - node.state)
  let covariance := (1 - kalman_gain) * node.covariance
  (⟨state, covariance⟩, state)

/-- `n`-fold iteration of the estimator update with a fixed measurement
and measurement covariance. -/
def KalmanNode.iter (node : KalmanNode) (measurement measurement_covariance : ℚ) : ℕ → KalmanNode
  | 0 => node
  | n + 1 => ((node.iter measurement measurement_covariance n).update
      measurement measurement_covariance).1

/-! ## The packed boolean bitmap (external, modelled from the spec) -/

/-- Modelled from the spec: the packed boolean bitmap consumed by the grid
(src/domains/bitpackedgrid.rs is not under src/).  Interface per section 6:
new(width, height), set(x, y, bool), get(x, y), and a text rendering of one
character per cell per row with newline-terminated rows that round-trips
with the input text-map format.  Bits are held as a function from
coordinates; a fresh bitmap is all-false-equivalent. -/
structure BitPackedGrid where
  width : ℕ
  height : ℕ
  bits : ℕ → ℕ → Bool

/-- Modelled from the spec: a fresh bitmap of the given size, all bits
false-equivalent. -/
def BitPackedGrid.new (width height : ℕ) : BitPackedGrid :=
  ⟨width, height, fun _ _ => false⟩

/-- Modelled from the spec: point update of one bit. -/
def BitPackedGrid.set_bit_value (g : BitPackedGrid) (x y : ℕ) (value : Bool) : BitPackedGrid :=
  { g with bits := fun a b => if a = x ∧ b = y then value else g.bits a b }

/-- Modelled from the spec: point read of one bit. -/
def BitPackedGrid.get_bit_value (g : BitPackedGrid) (x y : ℕ) : Bool := g.bits x y

/-- Modelled from the spec: text rendering, one character per cell per
row, rows newline-terminated.  The polarity (a set bit renders '.', a
clear bit renders '@') is the one pinned by the spec's round-trip fixtures
(section 8) and by the tests in src/domains/samplegrid.rs, where cells of
the obstacle character '@' keep belief state 0.0 and render back as '@'. -/
def BitPackedGrid.print_cells (g : BitPackedGrid) : String :=
  String.join ((List.range g.height).map (fun y =>
    String.mk ((List.range g.width).map (fun x => if g.bits x y then '.' else '@')) ++ "\n"))

/-! ## The belief grid (SampleGrid, src lines 5-165) -/

/-- The sampling grid of the source: a matrix of Kalman nodes (outer index
x up to width, inner index y up to height), the realization bitmap
(gridmap), the ground-truth bitmap, and the stored dimensions. -/
structure SampleGrid where
  sample_grid : List (List KalmanNode)
  gridmap : BitPackedGrid
  ground_truth : BitPackedGrid
  width : ℕ
  height : ℕ

/-- The default covariance of the Kalman filter (Self::COVARIANCE = 1.0). -/
def SampleGrid.COVARIANCE : ℚ := 1

/-- Read the node at matrix position (x, y); models the panicking Rust
index read, totalized with the default node for out-of-range positions. -/
def nodeAt (m : List (List KalmanNode)) (x y : ℕ) : KalmanNode :=
  (m.getD x []).getD y default

/-- Write the node at matrix position (x, y); models the Rust index
assignment (a no-op out of range, where Rust would panic). -/
def setNodeList (m : List (List KalmanNode)) (x y : ℕ) (node : KalmanNode) :
    List (List KalmanNode) :=
  m.set x ((m.getD x []).set y node)

/-- Read the node at grid position (x, y). -/
def SampleGrid.getNode (g : SampleGrid) (x y : ℕ) : KalmanNode := nodeAt g.sample_grid x y

/-- Replace the node at grid position (x, y). -/
def SampleGrid.setNode (g : SampleGrid) (x y : ℕ) (node : KalmanNode) : SampleGrid :=
  { g with sample_grid := setNodeList g.sample_grid x y node }

/-- The cells (x + i, y + j) for i below w and j below h, in the order of
the source's nested loops (outer x, inner y). -/
def areaCells (x y w h : ℕ) : List (ℕ × ℕ) :=
  (List.range w).flatMap (fun i => (List.range h).map (fun j => (x + i, y + j)))

/-- SampleGrid::init_gridmap_area: for every cell of the rectangle
[x, x+w) × [y, y+h), set the realization bit to (state != 0.0). -/
def SampleGrid.init_gridmap_area (g : SampleGrid) (x y w h : ℕ) : SampleGrid :=
  (areaCells x y w h).foldl
    (fun acc c =>
      { acc with gridmap :=
          acc.gridmap.set_bit_value c.1 c.2 (decide ((nodeAt acc.sample_grid c.1 c.2).state ≠ 0)) })
    g

/-- SampleGrid::init_gridmap_radius: clip the square neighborhood of the
center to the grid with saturating subtraction below and min-clamping
above, then synchronize that area.  Nat subtraction is the saturating
subtraction of the source. -/
def SampleGrid.init_gridmap_radius (g : SampleGrid) (x y radius : ℕ) : SampleGrid :=
  let radius := radius + 1
  let x_min := x - radius
  let y_min := y - radius
  let x_max := (x + radius).min g.width
  let y_max := (y + radius).min g.height
  g.init_gridmap_area x_min y_min (x_max - x_min) (y_max - y_min)

/-- SampleGrid::init_gridmap: synchronize the whole grid. -/
def SampleGrid.init_gridmap (g : SampleGrid) : SampleGrid :=
  g.init_gridmap_area 0 0 g.width g.height

/-- SampleGrid::init_ground_truth: write (state != 0.0) of every cell into
the ground-truth bitmap. -/
def SampleGrid.init_ground_truth (g : SampleGrid) : SampleGrid :=
  (areaCells 0 0 g.width g.height).foldl
    (fun acc c =>
      let v := decide ((nodeAt acc.sample_grid c.1 c.2).state ≠ 0)
      { acc with ground_truth := acc.ground_truth.set_bit_value c.1 c.2 v })
    g

/-- SampleGrid::new_with_size: uniform grid, every node {state 0.0,
covariance 1.0}, fresh bitmaps of the same size. -/
def SampleGrid.new_with_size (width height : ℕ) : SampleGrid :=
  { sample_grid := List.replicate width (List.replicate height ⟨0, SampleGrid.COVARIANCE⟩)
    gridmap := BitPackedGrid.new width height
    ground_truth := BitPackedGrid.new width height
    width := width
    height := height }

/-- SampleGrid::new_from_grid: dimensions from the belief matrix (width =
outer length, height = length of row 0), nodes with the default
covariance, fresh realization bitmap, the given ground-truth bitmap, then
a full bitmap synchronization.  An empty outer vector reaches the
out-of-range read grid[0], modelled as the `none` branch. -/
def SampleGrid.new_from_grid (grid : List (List ℚ)) (ground_truth : BitPackedGrid) :
    Option SampleGrid :=
  match grid with
  | [] => none
  | g0 :: _ =>
    let width := grid.length
    let height := g0.length
    let sample_grid := grid.map (fun row =>
      row.map (fun state => KalmanNode.mk state SampleGrid.COVARIANCE))
    some ((SampleGrid.mk sample_grid (BitPackedGrid.new width height) ground_truth
      width height).init_gridmap)

/-- Split a character list into newline-separated lines. -/
def splitLines (cs : List Char) : List (List Char) :=
  cs.foldr (fun c acc => if c = '\n' then [] :: acc else (c :: acc.headD []) :: acc.tail) [[]]

/-- Modelled from the spec: the generic text-map parser (not under src/).
Per section 6 it derives (width, height) from the equal-length rows of the
map text, builds the grid with the given constructor, and then invokes the
per-cell callback with the coordinates (column, row) of each cell.  The
cells passed to the callback are those of the non-obstacle characters
(every character other than '@'), the polarity pinned by the section 8
fixtures and the tests in src/domains/samplegrid.rs, where '.'-cells end
with belief state 1.0 and '@'-cells keep 0.0. -/
def create_map_from_string {D : Type} (map : String)
    (mkGrid : ℕ → ℕ → D) (markFree : D → ℕ → ℕ → D) : D :=
  let ls := (splitLines map.data).filter (fun s => s.length ≠ 0)
  let width := (ls.headD []).length
  let height := ls.length
  (ls.enum.foldl
    (fun acc row => (row.2.enum.foldl
      (fun acc2 ch => if ch.2 ≠ '@' then markFree acc2 ch.1 row.1 else acc2) acc))
    (mkGrid width height))

/-- SampleGrid::new_from_string: parse the map, set the state of every
callback cell to 1.0, then derive the ground-truth bitmap.  (No
realization-bitmap synchronization happens here.) -/
def SampleGrid.new_from_string (map : String) : SampleGrid :=
  let g := create_map_from_string map SampleGrid.new_with_size
    (fun g x y => g.setNode x y { g.getNode x y with state := 1 })
  g.init_ground_truth

/-- Modelled from the spec: SampleGrid::new_from_file reads the whole file
as text (a read failure aborts construction) and delegates to the text
constructor; the file's contents stand in for the file system read. -/
def SampleGrid.new_from_file (contents : String) : SampleGrid :=
  SampleGrid.new_from_string contents

/-! ## Smoothing (blur_samplegrid and the convolution externals) -/

/-- Modelled from the spec: the edge-resolution policy of the external
convolution utility; only the clamp-to-nearest policy is consumed. -/
inductive ConvResolve
  | Nearest
deriving DecidableEq

/-- kalman_grid_states: the matrix of belief means of a Kalman grid. -/
def kalman_grid_states (kalman_grid : List (List KalmanNode)) : List (List ℚ) :=
  kalman_grid.map (fun row => row.map (fun node => node.state))

/-- Truncated exponential series over ℚ (12 terms), used to give the
modelled Gaussian kernel concrete executable weights. -/
def expQ (x : ℚ) : ℚ :=
  (List.range 12).foldl (fun acc k => acc + x ^ k / (Nat.factorial k : ℚ)) 0

/-- Modelled from the spec: gaussian_kernal(size, sigma) (not under src/).
The spec fixes only the interface: a square kernel matrix of the given
size generated from the standard deviation.  Entries here are normalized
Gaussian weights exp(-(dx^2 + dy^2) / (2 sigma^2)) with the exponential
computed by a truncated rational series; the frame theorem about blurring
holds for every kernel, so the exact weights are never load-bearing. -/
def gaussian_kernal (size : ℕ) (sigma : ℚ) : List (List ℚ) :=
  let c : ℚ := (size / 2 : ℕ)
  let raw := (List.range size).map (fun i => (List.range size).map (fun j =>
    expQ (-(((i : ℚ) - c) ^ 2 + ((j : ℚ) - c) ^ 2) / (2 * sigma ^ 2))))
  let s := raw.foldl (fun acc row => row.foldl (· + ·) acc) 0
  raw.map (fun row => row.map (fun w => w / s))

/-- Clamp an integer index into [0, n). -/
def clampIdx (n : ℕ) (t : ℤ) : ℕ := min t.toNat (n - 1)

/-- Read entry (x, y) of a rational matrix, 0 out of range. -/
def mget (m : List (List ℚ)) (x y : ℕ) : ℚ := (m.getD x []).getD y 0

/-- One output entry of the modelled convolution: the kernel-weighted sum
of the input around (x, y), out-of-range input coordinates resolved by the
edge policy (clamping, for Nearest). -/
def convEntry (matrix kernel : List (List ℚ)) (resolve : ConvResolve) (x y : ℕ) : ℚ :=
  (areaCells 0 0 kernel.length kernel.length).foldl (fun acc ij =>
    acc + mget kernel ij.1 ij.2 *
      (match resolve with
       | ConvResolve.Nearest =>
           mget matrix (clampIdx matrix.length ((x : ℤ) + ij.1 - (kernel.length / 2)))
             (clampIdx (matrix.headD []).length ((y : ℤ) + ij.2 - (kernel.length / 2)))))
    0

/-- Modelled from the spec: convolve2d(matrix, kernel, policy) (not under
src/).  The output has the input's dimensions; each entry is the
kernel-weighted sum of the input around its coordinates with
clamp-to-nearest edge resolution (no wraparound, no zero padding). -/
def convolve2d (matrix kernel : List (List ℚ)) (resolve : ConvResolve) : List (List ℚ) :=
  (List.range matrix.length).map (fun x =>
    (List.range (matrix.headD []).length).map (fun y => convEntry matrix kernel resolve x y))

/-- SampleGrid::blur_samplegrid: generate the Gaussian kernel, convolve
the full matrix of belief means (materialized before any write-back),
then overwrite every cell's state with the convolved value; covariances
are not touched. -/
def SampleGrid.blur_samplegrid (g : SampleGrid) (size : ℕ) (sigma : ℚ) : SampleGrid :=
  let kernal := gaussian_kernal size sigma
  let sample_grid := convolve2d (kalman_grid_states g.sample_grid) kernal ConvResolve.Nearest
  (areaCells 0 0 g.width g.height).foldl
    (fun acc c =>
      acc.setNode c.1 c.2 { nodeAt acc.sample_grid c.1 c.2 with state := mget sample_grid c.1 c.2 })
    g

/-! ## Sampling and measurement feedback -/

/-- SampleGrid::sample: the external uniform draw rand::random in [0,1)
is passed as the explicit input u; the realization bit becomes
(state != 0.0 && u < state). -/
def SampleGrid.sample (g : SampleGrid) (x y : ℕ) (u : ℚ) : SampleGrid :=
  let v := decide ((nodeAt g.sample_grid x y).state ≠ 0) &&
    decide (u < (nodeAt g.sample_grid x y).state)
  { g with gridmap := g.gridmap.set_bit_value x y v }

/-- SampleGrid::sample_all: sample every cell, each with its own
independent draw us x y. -/
def SampleGrid.sample_all (g : SampleGrid) (us : ℕ → ℕ → ℚ) : SampleGrid :=
  (areaCells 0 0 g.width g.height).foldl (fun acc c => acc.sample c.1 c.2 (us c.1 c.2)) g

/-- The measurement SampleGrid::update_sample feeds to the estimator: the
ground-truth bit cast to 0.0 / 1.0. -/
def SampleGrid.measurementAt (g : SampleGrid) (x y : ℕ) : ℚ :=
  if g.ground_truth.get_bit_value x y then 1 else 0

/-- SampleGrid::update_sample: read the ground-truth bit, cast it to
0.0/1.0, and fold it into the cell's estimator with the given measurement
covariance. -/
def SampleGrid.update_sample (g : SampleGrid) (x y : ℕ) (measurement_covariance : ℚ) :
    SampleGrid :=
  g.setNode x y ((g.getNode x y).update (g.measurementAt x y) measurement_covariance).1

/-- SampleGrid::bound_check: the internal coordinate-validity primitive. -/
def SampleGrid.bound_check (g : SampleGrid) (x y : ℕ) : Bool :=
  decide (x < g.width) && decide (y < g.height)

/-- The matrix has outer extent width and inner extent height. -/
def SampleGrid.WF (g : SampleGrid) : Prop :=
  g.sample_grid.length = g.width ∧ ∀ row ∈ g.sample_grid, row.length = g.height

instance (g : SampleGrid) : Decidable g.WF := by
  unfold SampleGrid.WF
  infer_instance

/-- The dimension invariant of the spec: matrix, realization bitmap and
ground-truth bitmap all share the stored width × height dimensions. -/
def SampleGrid.GoodDims (g : SampleGrid) : Prop :=
  g.WF ∧ g.gridmap.width = g.width ∧ g.gridmap.height = g.height ∧
    g.ground_truth.width = g.width ∧ g.ground_truth.height = g.height

instance (g : SampleGrid) : Decidable g.GoodDims := by
  unfold SampleGrid.GoodDims
  infer_instance

/-! ## Machinery: list updates and fold characterizations -/

theorem getD_set_ite {α : Type} (l : List α) (i j : ℕ) (a d : α) :
    (l.set i a).getD j d = if i = j ∧ j < l.length then a else l.getD j d := by
  induction l generalizing i j with
  | nil => simp
  | cons hd tl ih =>
    cases i with
    | zero =>
      cases j with
      | zero => simp
      | succ j' => simp
    | succ i' =>
      cases j with
      | zero => simp
      | succ j' =>
        simp only [List.set_cons_succ, List.getD_cons_succ, List.length_cons, ih]
        by_cases h : i' = j' ∧ j' < tl.length
        · rw [if_pos h, if_pos ⟨by omega, by omega⟩]
        · rw [if_neg h, if_neg (by omega)]

theorem length_setNodeList (m : List (List KalmanNode)) (x y : ℕ) (node : KalmanNode) :
    (setNodeList m x y node).length = m.length := by
  simp [setNodeList]

theorem row_length_setNodeList (m : List (List KalmanNode)) (x y : ℕ) (node : KalmanNode)
    (i : ℕ) : ((setNodeList m x y node).getD i []).length = (m.getD i []).length := by
  rw [setNodeList, getD_set_ite]
  by_cases h : x = i ∧ i < m.length
  · rw [if_pos h, h.1, List.length_set]
  · rw [if_neg h]

theorem nodeAt_setNodeList (m : List (List KalmanNode)) (x y a b : ℕ) (node : KalmanNode) :
    nodeAt (setNodeList m x y node) a b =
      if a = x ∧ b = y ∧ x < m.length ∧ y < (m.getD x []).length then node
      else nodeAt m a b := by
  rw [nodeAt, setNodeList, getD_set_ite]
  by_cases hx : x = a ∧ a < m.length
  · obtain ⟨hxa, ham⟩ := hx
    subst hxa
    rw [if_pos ⟨rfl, ham⟩, getD_set_ite]
    by_cases hy : y = b ∧ b < (m.getD x []).length
    · obtain ⟨hyb, hb⟩ := hy
      subst hyb
      rw [if_pos ⟨rfl, hb⟩, if_pos ⟨rfl, rfl, ham, hb⟩]
    · rw [if_neg hy, if_neg (by rintro ⟨-, h2, -, h4⟩; exact hy ⟨h2.symm, h2 ▸ h4⟩)]
      rfl
  · rw [if_neg hx, if_neg (by rintro ⟨h1, -, h3, -⟩; exact hx ⟨h1.symm, h1 ▸ h3⟩)]
    rfl

theorem mem_areaCells {a b x y w h : ℕ} :
    (a, b) ∈ areaCells x y w h ↔ x ≤ a ∧ a < x + w ∧ y ≤ b ∧ b < y + h := by
  simp only [areaCells, List.mem_flatMap, List.mem_map, List.mem_range, Prod.mk.injEq]
  constructor
  · rintro ⟨i, hi, j, hj, h1, h2⟩
    omega
  · intro hc
    exact ⟨a - x, by omega, ⟨b - y, by omega, by omega, by omega⟩⟩

/-- Characterization of a fold that only writes realization-bitmap bits,
each bit a function of the (invariant) estimator matrix and the cell. -/
theorem foldl_gridmap_write (f : List (List KalmanNode) → ℕ × ℕ → Bool) :
    ∀ (L : List (ℕ × ℕ)) (g : SampleGrid),
      (L.foldl
        (fun acc c =>
          { acc with gridmap := acc.gridmap.set_bit_value c.1 c.2 (f acc.sample_grid c) }) g)
      = { g with gridmap :=
            ⟨g.gridmap.width, g.gridmap.height,
              fun a b => if (a, b) ∈ L then f g.sample_grid (a, b) else g.gridmap.bits a b⟩ }
  | [], g => by simp
  | c :: L, g => by
    rw [List.foldl_cons, foldl_gridmap_write f L]
    show ({ g with gridmap := _ } : SampleGrid) = { g with gridmap := _ }
    congr 1
    rcases hgm : g.gridmap with ⟨gw, gh, gbits⟩
    simp only [BitPackedGrid.set_bit_value, BitPackedGrid.mk.injEq, true_and]
    funext a b
    by_cases hL : (a, b) ∈ L
    · simp [hL, List.mem_cons, hgm]
    · by_cases hc : (a, b) = c
      · have : a = c.1 ∧ b = c.2 := by rw [← hc]; exact ⟨rfl, rfl⟩
        simp [hL, hc, this, hgm]
      · have : ¬(a = c.1 ∧ b = c.2) := by
          intro hab
          exact hc (Prod.ext hab.1 hab.2)
        simp [hL, hc, this, hgm]

/-- Characterization of a fold that only writes ground-truth bits,
each bit a function of the (invariant) estimator matrix and the cell. -/
theorem foldl_ground_write (f : List (List KalmanNode) → ℕ × ℕ → Bool) :
    ∀ (L : List (ℕ × ℕ)) (g : SampleGrid),
      (L.foldl
        (fun acc c =>
          { acc with ground_truth :=
              acc.ground_truth.set_bit_value c.1 c.2 (f acc.sample_grid c) }) g)
      = { g with ground_truth :=
            ⟨g.ground_truth.width, g.ground_truth.height,
              fun a b => if (a, b) ∈ L then f g.sample_grid (a, b) else g.ground_truth.bits a b⟩ }
  | [], g => by simp
  | c :: L, g => by
    rw [List.foldl_cons, foldl_ground_write f L]
    show ({ g with ground_truth := _ } : SampleGrid) = { g with ground_truth := _ }
    congr 1
    rcases hgm : g.ground_truth with ⟨gw, gh, gbits⟩
    simp only [BitPackedGrid.set_bit_value, BitPackedGrid.mk.injEq, true_and]
    funext a b
    by_cases hL : (a, b) ∈ L
    · simp [hL, List.mem_cons, hgm]
    · by_cases hc : (a, b) = c
      · have : a = c.1 ∧ b = c.2 := by rw [← hc]; exact ⟨rfl, rfl⟩
        simp [hL, hc, this, hgm]
      · have : ¬(a = c.1 ∧ b = c.2) := by
          intro hab
          exact hc (Prod.ext hab.1 hab.2)
        simp [hL, hc, this, hgm]

/-- The write-back fold of blur_samplegrid, abstracted over the
already-materialized convolved matrix read as a function of the cell. -/
def blurFold (v : ℕ × ℕ → ℚ) (L : List (ℕ × ℕ)) (g : SampleGrid) : SampleGrid :=
  L.foldl
    (fun acc c => acc.setNode c.1 c.2 { nodeAt acc.sample_grid c.1 c.2 with state := v c }) g

theorem blurFold_spec (v : ℕ × ℕ → ℚ) :
    ∀ (L : List (ℕ × ℕ)) (g : SampleGrid),
      (blurFold v L g).gridmap = g.gridmap ∧
      (blurFold v L g).ground_truth = g.ground_truth ∧
      (blurFold v L g).width = g.width ∧
      (blurFold v L g).height = g.height ∧
      (blurFold v L g).sample_grid.length = g.sample_grid.length ∧
      (∀ i, ((blurFold v L g).sample_grid.getD i []).length = (g.sample_grid.getD i []).length) ∧
      (∀ a b, nodeAt (blurFold v L g).sample_grid a b =
        if (a, b) ∈ L ∧ a < g.sample_grid.length ∧ b < (g.sample_grid.getD a []).length
        then ⟨v (a, b), (nodeAt g.sample_grid a b).covariance⟩
        else nodeAt g.sample_grid a b)
  | [], g => by
    refine ⟨rfl, rfl, rfl, rfl, rfl, fun _ => rfl, fun a b => ?_⟩
    rw [show blurFold v [] g = g from rfl, if_neg (by simp)]
  | ⟨c1, c2⟩ :: L, g => by
    obtain ⟨h1, h2, h3, h4, h5, h6, h7⟩ := blurFold_spec v L
      (g.setNode c1 c2 { nodeAt g.sample_grid c1 c2 with state := v (c1, c2) })
    have hfold : blurFold v ((c1, c2) :: L) g =
        blurFold v L (g.setNode c1 c2 { nodeAt g.sample_grid c1 c2 with state := v (c1, c2) }) :=
      rfl
    have hsg : (g.setNode c1 c2
        { nodeAt g.sample_grid c1 c2 with state := v (c1, c2) }).sample_grid =
        setNodeList g.sample_grid c1 c2
          { nodeAt g.sample_grid c1 c2 with state := v (c1, c2) } :=
      rfl
    rw [hfold]
    refine ⟨h1, h2, h3, h4, ?_, ?_, ?_⟩
    · rw [h5, hsg, length_setNodeList]
    · intro i
      rw [h6 i, hsg, row_length_setNodeList]
    · intro a b
      rw [h7 a b, hsg, length_setNodeList, row_length_setNodeList,
        nodeAt_setNodeList g.sample_grid c1 c2 a b
          { nodeAt g.sample_grid c1 c2 with state := v (c1, c2) }]
      simp only [List.mem_cons, Prod.mk.injEq]
      by_cases hP2 : a = c1 ∧ b = c2 ∧ c1 < g.sample_grid.length ∧
          c2 < (g.sample_grid.getD c1 []).length
      · obtain ⟨ha, hb, hq3, hq4⟩ := hP2
        subst ha
        subst hb
        have hI : a = a ∧ b = b ∧ a < g.sample_grid.length ∧
            b < (g.sample_grid.getD a []).length := ⟨rfl, rfl, hq3, hq4⟩
        have hR : (a = a ∧ b = b ∨ (a, b) ∈ L) ∧ a < g.sample_grid.length ∧
            b < (g.sample_grid.getD a []).length := ⟨Or.inl ⟨rfl, rfl⟩, hq3, hq4⟩
        rw [if_pos hI, if_pos hR]
        by_cases hP1 : (a, b) ∈ L ∧ a < g.sample_grid.length ∧
            b < (g.sample_grid.getD a []).length
        · rw [if_pos hP1]
        · rw [if_neg hP1]
      · rw [if_neg hP2]
        by_cases hP1 : (a, b) ∈ L ∧ a < g.sample_grid.length ∧
            b < (g.sample_grid.getD a []).length
        · have hR : (a = c1 ∧ b = c2 ∨ (a, b) ∈ L) ∧ a < g.sample_grid.length ∧
              b < (g.sample_grid.getD a []).length := ⟨Or.inr hP1.1, hP1.2.1, hP1.2.2⟩
          rw [if_pos hP1, if_pos hR]
        · have hR : ¬((a = c1 ∧ b = c2 ∨ (a, b) ∈ L) ∧ a < g.sample_grid.length ∧
              b < (g.sample_grid.getD a []).length) := by
            rintro ⟨hd | hd, hb1, hb2⟩
            · obtain ⟨ha, hb⟩ := hd
              subst ha
              subst hb
              exact hP2 ⟨rfl, rfl, hb1, hb2⟩
            · exact hP1 ⟨hd, hb1, hb2⟩
          rw [if_neg hP1, if_neg hR]

/-! ## Machinery: the grid operations in characterized form -/

theorem init_gridmap_area_eq (g : SampleGrid) (x y w h : ℕ) :
    g.init_gridmap_area x y w h =
      { g with gridmap :=
          ⟨g.gridmap.width, g.gridmap.height,
            fun a b => if (a, b) ∈ areaCells x y w h
              then decide ((nodeAt g.sample_grid a b).state ≠ 0)
              else g.gridmap.bits a b⟩ } :=
  foldl_gridmap_write (fun m c => decide ((nodeAt m c.1 c.2).state ≠ 0)) (areaCells x y w h) g

theorem init_ground_truth_eq (g : SampleGrid) :
    g.init_ground_truth =
      { g with ground_truth :=
          ⟨g.ground_truth.width, g.ground_truth.height,
            fun a b => if (a, b) ∈ areaCells 0 0 g.width g.height
              then decide ((nodeAt g.sample_grid a b).state ≠ 0)
              else g.ground_truth.bits a b⟩ } :=
  foldl_ground_write (fun m c => decide ((nodeAt m c.1 c.2).state ≠ 0))
    (areaCells 0 0 g.width g.height) g

theorem sample_all_eq (g : SampleGrid) (us : ℕ → ℕ → ℚ) :
    g.sample_all us =
      { g with gridmap :=
          ⟨g.gridmap.width, g.gridmap.height,
            fun a b => if (a, b) ∈ areaCells 0 0 g.width g.height
              then decide ((nodeAt g.sample_grid a b).state ≠ 0) &&
                decide (us a b < (nodeAt g.sample_grid a b).state)
              else g.gridmap.bits a b⟩ } :=
  foldl_gridmap_write
    (fun m c => decide ((nodeAt m c.1 c.2).state ≠ 0) && decide (us c.1 c.2 < (nodeAt m c.1 c.2).state))
    (areaCells 0 0 g.width g.height) g

theorem set_of_length_le {α : Type} (l : List α) (n : ℕ) (a : α) (h : l.length ≤ n) :
    l.set n a = l := by
  induction l generalizing n with
  | nil => rfl
  | cons hd tl ih =>
    cases n with
    | zero => simp at h
    | succ n' =>
      rw [List.set_cons_succ, ih n' (by simpa using h)]

theorem WF_row_length {g : SampleGrid} (hwf : g.WF) {x : ℕ} (hx : x < g.width) :
    (g.sample_grid.getD x []).length = g.height := by
  have hlen : x < g.sample_grid.length := by rw [hwf.1]; exact hx
  rw [List.getD_eq_getElem _ _ hlen]
  exact hwf.2 _ (List.getElem_mem hlen)

theorem getNode_update_sample {g : SampleGrid} {x y : ℕ} (r : ℚ)
    (hwf : g.WF) (hx : x < g.width) (hy : y < g.height) :
    (g.update_sample x y r).getNode x y =
      ((g.getNode x y).update (g.measurementAt x y) r).1 := by
  have hx' : x < g.sample_grid.length := by rw [hwf.1]; exact hx
  have hy' : y < (g.sample_grid.getD x []).length := by rw [WF_row_length hwf hx]; exact hy
  show nodeAt (setNodeList g.sample_grid x y _) x y = _
  rw [nodeAt_setNodeList, if_pos ⟨rfl, rfl, hx', hy'⟩]

theorem update_sample_WF {g : SampleGrid} (x y : ℕ) (r : ℚ) (hwf : g.WF) :
    (g.update_sample x y r).WF := by
  by_cases hxb : x < g.sample_grid.length
  · constructor
    · show (setNodeList g.sample_grid x y _).length = g.width
      rw [length_setNodeList, hwf.1]
    · intro row hrow
      have hrow' : row ∈ g.sample_grid.set x ((g.sample_grid.getD x []).set y
          ((g.getNode x y).update (g.measurementAt x y) r).1) := hrow
      rcases List.mem_or_eq_of_mem_set hrow' with hmem | heq
      · exact hwf.2 row hmem
      · rw [heq, List.length_set, List.getD_eq_getElem _ _ hxb]
        exact hwf.2 _ (List.getElem_mem hxb)
  · have hnoop : (g.update_sample x y r).sample_grid = g.sample_grid := by
      show setNodeList g.sample_grid x y _ = g.sample_grid
      rw [setNodeList, set_of_length_le _ _ _ (by omega)]
    constructor
    · rw [hnoop, hwf.1]
      rfl
    · intro row hrow
      rw [hnoop] at hrow
      exact hwf.2 row hrow

/-! ## Machinery: algebra of the exact estimator update -/

theorem kalman_update_single (node : KalmanNode) (m r : ℚ)
    (hp : 0 < node.covariance) (hr : 0 < r) :
    0 < node.covariance / (node.covariance + r) ∧
    node.covariance / (node.covariance + r) < 1 ∧
    (node.update m r).1.covariance < node.covariance ∧
    0 < (node.update m r).1.covariance ∧
    (node.update m r).1.state =
      node.state + (node.covariance / (node.covariance + r)) * (m - node.state) ∧
    |m - (node.update m r).1.state| ≤ |m - node.state| := by
  have hpr : 0 < node.covariance + r := by linarith
  have hgain0 : 0 < node.covariance / (node.covariance + r) := div_pos hp hpr
  have hgain1 : node.covariance / (node.covariance + r) < 1 :=
    (div_lt_one hpr).mpr (by linarith)
  have hcov : (node.update m r).1.covariance =
      (1 - node.covariance / (node.covariance + r)) * node.covariance := rfl
  refine ⟨hgain0, hgain1, ?_, ?_, rfl, ?_⟩
  · rw [hcov]
    nlinarith
  · rw [hcov]
    nlinarith
  · have hst : m - (node.update m r).1.state =
        (1 - node.covariance / (node.covariance + r)) * (m - node.state) := by
      show m - (node.state + node.covariance / (node.covariance + r) * (m - node.state)) = _
      ring
    rw [hst, abs_mul, abs_of_nonneg (by linarith)]
    exact mul_le_of_le_one_left (abs_nonneg _) (by linarith)

theorem kalman_iter_closed (node : KalmanNode) (m r : ℚ)
    (hp : 0 < node.covariance) (hr : 0 < r) :
    ∀ n : ℕ,
      (node.iter m r n).covariance = node.covariance * r / (r + n * node.covariance) ∧
      m - (node.iter m r n).state = (m - node.state) * (r / (r + n * node.covariance)) := by
  intro n
  induction n with
  | zero =>
    constructor
    · show node.covariance = node.covariance * r / (r + 0 * node.covariance)
      field_simp
    · show m - node.state = (m - node.state) * (r / (r + 0 * node.covariance))
      field_simp
  | succ n ih =>
    obtain ⟨hc, hs⟩ := ih
    have hn0 : (0:ℚ) ≤ (n:ℚ) := Nat.cast_nonneg n
    have hden : 0 < r + (n:ℚ) * node.covariance := by nlinarith
    have hden1 : 0 < r + ((n:ℚ) + 1) * node.covariance := by nlinarith
    have hpn : 0 < (node.iter m r n).covariance := by
      rw [hc]
      positivity
    have hpnr : 0 < (node.iter m r n).covariance + r := by linarith
    have hcov1 : (node.iter m r (n + 1)).covariance =
        (1 - (node.iter m r n).covariance / ((node.iter m r n).covariance + r)) *
          (node.iter m r n).covariance := rfl
    have hst1 : (node.iter m r (n + 1)).state =
        (node.iter m r n).state +
          ((node.iter m r n).covariance / ((node.iter m r n).covariance + r)) *
            (m - (node.iter m r n).state) := rfl
    have h1 : (r + (n:ℚ) * node.covariance) ≠ 0 := ne_of_gt hden
    have h2 : (r + ((n:ℚ) + 1) * node.covariance) ≠ 0 := ne_of_gt hden1
    have h3 : node.covariance * r + r * (r + (n:ℚ) * node.covariance) ≠ 0 := by nlinarith
    constructor
    · rw [hcov1, hc]
      push_cast
      field_simp
      ring
    · have hrw : m - (node.iter m r (n + 1)).state =
          (1 - (node.iter m r n).covariance / ((node.iter m r n).covariance + r)) *
            (m - (node.iter m r n).state) := by
        rw [hst1]
        ring
      rw [hrw, hs, hc]
      push_cast
      field_simp
      ring

theorem iterate_update_sample_spec (g : SampleGrid) (x y : ℕ) (r : ℚ)
    (hwf : g.WF) (hx : x < g.width) (hy : y < g.height) :
    ∀ n : ℕ,
      ((fun h => h.update_sample x y r)^[n] g).WF ∧
      ((fun h => h.update_sample x y r)^[n] g).width = g.width ∧
      ((fun h => h.update_sample x y r)^[n] g).height = g.height ∧
      ((fun h => h.update_sample x y r)^[n] g).ground_truth = g.ground_truth ∧
      ((fun h => h.update_sample x y r)^[n] g).getNode x y =
        (g.getNode x y).iter (g.measurementAt x y) r n
  | 0 => ⟨hwf, rfl, rfl, rfl, rfl⟩
  | n + 1 => by
    obtain ⟨h1, h2, h3, h4, h5⟩ := iterate_update_sample_spec g x y r hwf hx hy n
    rw [Function.iterate_succ_apply']
    refine ⟨update_sample_WF x y r h1, h2, h3, h4, ?_⟩
    have hms : ((fun h => h.update_sample x y r)^[n] g).measurementAt x y =
        g.measurementAt x y := by
      simp only [SampleGrid.measurementAt, BitPackedGrid.get_bit_value, h4]
    rw [getNode_update_sample r h1 (by rw [h2]; exact hx) (by rw [h3]; exact hy), h5, hms]
    rfl

/-! ## The claims -/

/-- C2: for every in-bounds cell and fixed measurement covariance r > 0
(with the cell's covariance positive, as holds for every grid reachable
from construction), one update_sample call has gain strictly in (0, 1),
strictly decreases (hence never increases) the cell's covariance, and
moves the state partway toward the ground-truth measurement; repeating
the call yields a non-increasing covariance sequence and a state sequence
converging to the ground-truth value (the cast bit, 0 or 1). -/
theorem claim_C2_estimator_feedback_convergence (g : SampleGrid) (x y : ℕ) (r : ℚ)
    (hwf : g.WF) (hx : x < g.width) (hy : y < g.height)
    (hr : 0 < r) (hp : 0 < (g.getNode x y).covariance) :
    0 < (g.getNode x y).covariance / ((g.getNode x y).covariance + r) ∧
    (g.getNode x y).covariance / ((g.getNode x y).covariance + r) < 1 ∧
    ((g.update_sample x y r).getNode x y).covariance < (g.getNode x y).covariance ∧
    ((g.update_sample x y r).getNode x y).covariance ≤ (g.getNode x y).covariance ∧
    ((g.update_sample x y r).getNode x y).state =
      (g.getNode x y).state +
        ((g.getNode x y).covariance / ((g.getNode x y).covariance + r)) *
          (g.measurementAt x y - (g.getNode x y).state) ∧
    |g.measurementAt x y - ((g.update_sample x y r).getNode x y).state| ≤
      |g.measurementAt x y - (g.getNode x y).state| ∧
    (∀ n : ℕ,
      (((fun h => h.update_sample x y r)^[n + 1] g).getNode x y).covariance ≤
        (((fun h => h.update_sample x y r)^[n] g).getNode x y).covariance) ∧
    (∀ ε : ℚ, 0 < ε → ∃ N : ℕ, ∀ n, N ≤ n →
      |(((fun h => h.update_sample x y r)^[n] g).getNode x y).state - g.measurementAt x y| < ε) := by
  obtain ⟨hg0, hg1, hlt, hpos, hst, habs⟩ :=
    kalman_update_single (g.getNode x y) (g.measurementAt x y) r hp hr
  have hupd := getNode_update_sample r hwf hx hy
  refine ⟨hg0, hg1, by rw [hupd]; exact hlt, by rw [hupd]; exact le_of_lt hlt,
    by rw [hupd]; exact hst, by rw [hupd]; exact habs, ?_, ?_⟩
  · intro n
    rw [(iterate_update_sample_spec g x y r hwf hx hy (n + 1)).2.2.2.2,
      (iterate_update_sample_spec g x y r hwf hx hy n).2.2.2.2,
      (kalman_iter_closed (g.getNode x y) (g.measurementAt x y) r hp hr (n + 1)).1,
      (kalman_iter_closed (g.getNode x y) (g.measurementAt x y) r hp hr n).1]
    have hn0 : (0:ℚ) ≤ (n:ℚ) := Nat.cast_nonneg n
    have hden : 0 < r + (n:ℚ) * (g.getNode x y).covariance := by nlinarith
    have hden1 : 0 < r + ((n:ℚ) + 1) * (g.getNode x y).covariance := by nlinarith
    push_cast
    rw [div_le_div_iff₀ hden1 hden]
    nlinarith [mul_pos (mul_pos hp hr) hp]
  · intro ε hε
    obtain ⟨N, hN⟩ := exists_nat_gt
      (|g.measurementAt x y - (g.getNode x y).state| * r / (ε * (g.getNode x y).covariance))
    refine ⟨N, fun n hn => ?_⟩
    rw [(iterate_update_sample_spec g x y r hwf hx hy n).2.2.2.2, abs_sub_comm,
      (kalman_iter_closed (g.getNode x y) (g.measurementAt x y) r hp hr n).2]
    have hn0 : (0:ℚ) ≤ (n:ℚ) := Nat.cast_nonneg n
    have hden : 0 < r + (n:ℚ) * (g.getNode x y).covariance := by nlinarith
    have hA : (0:ℚ) ≤ |g.measurementAt x y - (g.getNode x y).state| := abs_nonneg _
    have hcast : (N:ℚ) ≤ (n:ℚ) := Nat.cast_le.mpr hn
    have hNn : |g.measurementAt x y - (g.getNode x y).state| * r /
        (ε * (g.getNode x y).covariance) < (n:ℚ) := lt_of_lt_of_le hN hcast
    have hprod : |g.measurementAt x y - (g.getNode x y).state| * r <
        (n:ℚ) * (ε * (g.getNode x y).covariance) := by
      rw [div_lt_iff₀ (by positivity)] at hNn
      linarith
    have habs2 : |r / (r + (n:ℚ) * (g.getNode x y).covariance)| =
        r / (r + (n:ℚ) * (g.getNode x y).covariance) := abs_of_pos (by positivity)
    rw [abs_mul, habs2, ← mul_div_assoc, div_lt_iff₀ hden]
    nlinarith [mul_pos hε hr]

/-- Witness for C2 at the concrete one-cell uniform grid with r = 1. -/
theorem claim_C2_witness :
    (SampleGrid.new_with_size 1 1).WF ∧
    0 < (SampleGrid.new_with_size 1 1).width ∧
    0 < (SampleGrid.new_with_size 1 1).height ∧
    (0:ℚ) < 1 ∧
    0 < ((SampleGrid.new_with_size 1 1).getNode 0 0).covariance ∧
    0 < ((SampleGrid.new_with_size 1 1).getNode 0 0).covariance /
      (((SampleGrid.new_with_size 1 1).getNode 0 0).covariance + 1) :=
  ⟨by decide, by decide, by decide, by decide, by decide,
    (claim_C2_estimator_feedback_convergence (SampleGrid.new_with_size 1 1) 0 0 1
      (by decide) (by decide) (by decide) (by decide) (by decide)).1⟩

/-- C3: sample(x, y) with one uniform draw u sets the realization bit to
true iff the cell's state is nonzero and u < state; a cell with state 0.0
yields false for every draw, a cell with state 1.0 yields true for every
draw in [0,1), and sample_all applies the same rule to every cell with
that cell's own independent draw. -/
theorem claim_C3_sampling_rule (g : SampleGrid) (x y : ℕ) (u : ℚ)
    (hx : x < g.width) (hy : y < g.height) :
    (g.sample x y u).gridmap.get_bit_value x y =
      (decide ((g.getNode x y).state ≠ 0) && decide (u < (g.getNode x y).state)) ∧
    ((g.getNode x y).state = 0 → (g.sample x y u).gridmap.get_bit_value x y = false) ∧
    ((g.getNode x y).state = 1 → 0 ≤ u → u < 1 →
      (g.sample x y u).gridmap.get_bit_value x y = true) ∧
    (∀ us : ℕ → ℕ → ℚ, (g.sample_all us).gridmap.get_bit_value x y =
      (decide ((g.getNode x y).state ≠ 0) && decide (us x y < (g.getNode x y).state))) := by
  have hbit : (g.sample x y u).gridmap.get_bit_value x y =
      (decide ((g.getNode x y).state ≠ 0) && decide (u < (g.getNode x y).state)) := by
    show (if x = x ∧ y = y then _ else _) = _
    rw [if_pos ⟨rfl, rfl⟩]
    rfl
  refine ⟨hbit, ?_, ?_, ?_⟩
  · intro h0
    rw [hbit, h0]
    simp
  · intro h1 hu0 hu1
    rw [hbit, h1]
    simp [hu1, one_ne_zero]
  · intro us
    rw [sample_all_eq]
    show (if (x, y) ∈ areaCells 0 0 g.width g.height then _ else _) = _
    rw [if_pos (mem_areaCells.mpr ⟨Nat.zero_le x, by omega, Nat.zero_le y, by omega⟩)]
    rfl

/-- Witness for C3 at the concrete one-cell uniform grid with u = 0. -/
theorem claim_C3_witness :
    0 < (SampleGrid.new_with_size 1 1).width ∧
    0 < (SampleGrid.new_with_size 1 1).height ∧
    ((SampleGrid.new_with_size 1 1).sample 0 0 0).gridmap.get_bit_value 0 0 =
      (decide (((SampleGrid.new_with_size 1 1).getNode 0 0).state ≠ 0) &&
        decide ((0:ℚ) < ((SampleGrid.new_with_size 1 1).getNode 0 0).state)) :=
  ⟨by decide, by decide,
    (claim_C3_sampling_rule (SampleGrid.new_with_size 1 1) 0 0 0 (by decide) (by decide)).1⟩

/-- C4: synchronizing a rectangle contained in the grid sets exactly the
realization bits of the rectangle's cells to (state != 0.0), leaves every
realization bit outside the rectangle unchanged, and leaves the estimator
matrix and the ground-truth bitmap untouched. -/
theorem claim_C4_sync_area (g : SampleGrid) (x y w h : ℕ)
    (hxw : x + w ≤ g.width) (hyh : y + h ≤ g.height) :
    (∀ a b, x ≤ a → a < x + w → y ≤ b → b < y + h →
      (g.init_gridmap_area x y w h).gridmap.get_bit_value a b =
        decide ((g.getNode a b).state ≠ 0)) ∧
    (∀ a b, ¬(x ≤ a ∧ a < x + w ∧ y ≤ b ∧ b < y + h) →
      (g.init_gridmap_area x y w h).gridmap.get_bit_value a b =
        g.gridmap.get_bit_value a b) ∧
    (g.init_gridmap_area x y w h).sample_grid = g.sample_grid ∧
    (g.init_gridmap_area x y w h).ground_truth = g.ground_truth ∧
    (g.init_gridmap_area x y w h).width = g.width ∧
    (g.init_gridmap_area x y w h).height = g.height := by
  rw [init_gridmap_area_eq]
  refine ⟨?_, ?_, rfl, rfl, rfl, rfl⟩
  · intro a b h1 h2 h3 h4
    show (if (a, b) ∈ areaCells x y w h then _ else _) = _
    rw [if_pos (mem_areaCells.mpr ⟨h1, h2, h3, h4⟩)]
    rfl
  · intro a b hout
    show (if (a, b) ∈ areaCells x y w h then _ else _) = _
    rw [if_neg (fun hmem => hout (mem_areaCells.mp hmem))]
    rfl

/-- Witness for C4 at a concrete 2 × 2 grid and the rectangle [0,1) × [0,1). -/
theorem claim_C4_witness :
    0 + 1 ≤ (SampleGrid.new_with_size 2 2).width ∧
    0 + 1 ≤ (SampleGrid.new_with_size 2 2).height ∧
    ((SampleGrid.new_with_size 2 2).init_gridmap_area 0 0 1 1).sample_grid =
      (SampleGrid.new_with_size 2 2).sample_grid :=
  ⟨by decide, by decide,
    (claim_C4_sync_area (SampleGrid.new_with_size 2 2) 0 0 1 1 (by decide) (by decide)).2.2.1⟩

/-- C5: for an in-bounds center, radius synchronization touches exactly
the square neighborhood of half-width radius + 1 clipped with saturating
subtraction below and min-clamping above, and every cell it touches is in
bounds, so no out-of-range index is used. -/
theorem claim_C5_sync_radius_bounds (g : SampleGrid) (x y radius : ℕ)
    (hx : x < g.width) (hy : y < g.height) :
    g.init_gridmap_radius x y radius =
      g.init_gridmap_area (x - (radius + 1)) (y - (radius + 1))
        (((x + (radius + 1)).min g.width) - (x - (radius + 1)))
        (((y + (radius + 1)).min g.height) - (y - (radius + 1))) ∧
    (∀ a b, (a, b) ∈ areaCells (x - (radius + 1)) (y - (radius + 1))
        (((x + (radius + 1)).min g.width) - (x - (radius + 1)))
        (((y + (radius + 1)).min g.height) - (y - (radius + 1))) →
      a < g.width ∧ b < g.height) ∧
    (∀ a b, (a, b) ∈ areaCells (x - (radius + 1)) (y - (radius + 1))
        (((x + (radius + 1)).min g.width) - (x - (radius + 1)))
        (((y + (radius + 1)).min g.height) - (y - (radius + 1))) ↔
      (x - (radius + 1) ≤ a ∧ a < (x + (radius + 1)).min g.width ∧
        y - (radius + 1) ≤ b ∧ b < (y + (radius + 1)).min g.height)) := by
  have hx1 : (x + (radius + 1)).min g.width ≤ g.width := Nat.min_le_right _ _
  have hy1 : (y + (radius + 1)).min g.height ≤ g.height := Nat.min_le_right _ _
  have hx2 : x - (radius + 1) ≤ (x + (radius + 1)).min g.width :=
    Nat.le_min.mpr ⟨by omega, by omega⟩
  have hy2 : y - (radius + 1) ≤ (y + (radius + 1)).min g.height :=
    Nat.le_min.mpr ⟨by omega, by omega⟩
  refine ⟨rfl, ?_, ?_⟩
  · intro a b hmem
    have hb := mem_areaCells.mp hmem
    omega
  · intro a b
    rw [mem_areaCells]
    omega

/-- Witness for C5 at a concrete 2 × 2 grid, center (0, 0), radius 0. -/
theorem claim_C5_witness :
    0 < (SampleGrid.new_with_size 2 2).width ∧
    0 < (SampleGrid.new_with_size 2 2).height ∧
    (SampleGrid.new_with_size 2 2).init_gridmap_radius 0 0 0 =
      (SampleGrid.new_with_size 2 2).init_gridmap_area (0 - (0 + 1)) (0 - (0 + 1))
        (((0 + (0 + 1)).min (SampleGrid.new_with_size 2 2).width) - (0 - (0 + 1)))
        (((0 + (0 + 1)).min (SampleGrid.new_with_size 2 2).height) - (0 - (0 + 1))) :=
  ⟨by decide, by decide,
    (claim_C5_sync_radius_bounds (SampleGrid.new_with_size 2 2) 0 0 0
      (by decide) (by decide)).1⟩

theorem getD_range_map_length {β : Type} (n mI : ℕ) (F : ℕ → ℕ → β) (i : ℕ) (hi : i < n) :
    (((List.range n).map (fun x => (List.range mI).map (F x))).getD i []).length = mI := by
  have hi' : i < ((List.range n).map (fun x => (List.range mI).map (F x))).length := by
    simpa using hi
  rw [List.getD_eq_getElem _ _ hi', List.getElem_map, List.getElem_range]
  simp

theorem getD_zero_eq_headD {α : Type} (l : List α) (d : α) : l.getD 0 d = l.headD d := by
  cases l <;> rfl

theorem kalman_grid_states_length (m : List (List KalmanNode)) :
    (kalman_grid_states m).length = m.length := by
  simp [kalman_grid_states]

theorem kalman_grid_states_headD (m : List (List KalmanNode)) :
    ((kalman_grid_states m).headD []).length = (m.headD []).length := by
  cases m with
  | nil => rfl
  | cons r t => simp [kalman_grid_states]

theorem convolve2d_length (M K : List (List ℚ)) (res : ConvResolve) :
    (convolve2d M K res).length = M.length := by
  simp [convolve2d]

theorem convolve2d_row_length (M K : List (List ℚ)) (res : ConvResolve) (i : ℕ)
    (hi : i < M.length) :
    ((convolve2d M K res).getD i []).length = (M.headD []).length :=
  getD_range_map_length M.length (M.headD []).length (convEntry M K res) i hi

/-- Turn pointwise facts about states into equality of the extracted
state matrix. -/
theorem kalman_grid_states_eq_of_pointwise (out : List (List KalmanNode)) (C : List (List ℚ))
    (hlen : out.length = C.length)
    (hrow : ∀ i, i < out.length → (out.getD i []).length = (C.getD i []).length)
    (hpt : ∀ i j, i < out.length → j < (out.getD i []).length →
      (nodeAt out i j).state = (C.getD i []).getD j 0) :
    kalman_grid_states out = C := by
  apply List.ext_getElem
  · rw [kalman_grid_states_length, hlen]
  · intro i hi1 hi2
    rw [kalman_grid_states_length] at hi1
    have hic : i < C.length := by omega
    show (out.map (fun row => row.map (fun node => node.state)))[i] = C[i]
    rw [List.getElem_map]
    apply List.ext_getElem
    · rw [List.length_map, ← List.getD_eq_getElem out [] hi1, ← List.getD_eq_getElem C [] hic,
        hrow i hi1]
    · intro j hj1 hj2
      rw [List.getElem_map]
      have hj1' : j < (out.getD i []).length := by
        rw [List.getD_eq_getElem out [] hi1]
        simpa using hj1
      have := hpt i j hi1 hj1'
      rw [nodeAt, List.getD_eq_getElem out [] hi1,
        List.getD_eq_getElem _ _ (by simpa using hj1), List.getD_eq_getElem C [] hic,
        List.getD_eq_getElem _ _ (by simpa using hj2)] at this
      exact this

/-- C6: blurring overwrites only the state field of each estimator cell,
with the result of convolving the fully pre-computed state matrix against
the generated Gaussian kernel under the clamp-to-nearest edge policy;
every covariance, both bitmaps and the dimensions are unchanged. -/
theorem claim_C6_blur_frame (g : SampleGrid) (size : ℕ) (sigma : ℚ) (hwf : g.WF) :
    kalman_grid_states (g.blur_samplegrid size sigma).sample_grid =
      convolve2d (kalman_grid_states g.sample_grid) (gaussian_kernal size sigma)
        ConvResolve.Nearest ∧
    (∀ a b, ((g.blur_samplegrid size sigma).getNode a b).covariance =
      (g.getNode a b).covariance) ∧
    (g.blur_samplegrid size sigma).gridmap = g.gridmap ∧
    (g.blur_samplegrid size sigma).ground_truth = g.ground_truth ∧
    (g.blur_samplegrid size sigma).width = g.width ∧
    (g.blur_samplegrid size sigma).height = g.height := by
  have hb : g.blur_samplegrid size sigma =
      blurFold (fun c => mget (convolve2d (kalman_grid_states g.sample_grid)
          (gaussian_kernal size sigma) ConvResolve.Nearest) c.1 c.2)
        (areaCells 0 0 g.width g.height) g := rfl
  obtain ⟨s1, s2, s3, s4, s5, s6, s7⟩ :=
    blurFold_spec (fun c => mget (convolve2d (kalman_grid_states g.sample_grid)
        (gaussian_kernal size sigma) ConvResolve.Nearest) c.1 c.2)
      (areaCells 0 0 g.width g.height) g
  refine ⟨?_, ?_, by rw [hb]; exact s1, by rw [hb]; exact s2, by rw [hb]; exact s3,
    by rw [hb]; exact s4⟩
  · rw [hb]
    apply kalman_grid_states_eq_of_pointwise
    · rw [s5, convolve2d_length, kalman_grid_states_length]
    · intro i hi
      rw [s5, hwf.1] at hi
      rw [s6 i, convolve2d_row_length _ _ _ i
          (by rw [kalman_grid_states_length, hwf.1]; exact hi),
        kalman_grid_states_headD, WF_row_length hwf hi, ← getD_zero_eq_headD,
        WF_row_length hwf (by omega)]
    · intro i j hi hj
      rw [s5, hwf.1] at hi
      rw [s6 i, WF_row_length hwf hi] at hj
      have hmem : (i, j) ∈ areaCells 0 0 g.width g.height :=
        mem_areaCells.mpr ⟨Nat.zero_le i, by omega, Nat.zero_le j, by omega⟩
      rw [s7 i j, if_pos ⟨hmem, by rw [hwf.1]; exact hi,
        by rw [WF_row_length hwf hi]; exact hj⟩]
      rfl
  · intro a b
    show (nodeAt (g.blur_samplegrid size sigma).sample_grid a b).covariance = _
    rw [hb, s7 a b]
    by_cases hcond : (a, b) ∈ areaCells 0 0 g.width g.height ∧
        a < g.sample_grid.length ∧ b < (g.sample_grid.getD a []).length
    · rw [if_pos hcond]
      rfl
    · rw [if_neg hcond]
      rfl

/-- Witness for C6 at a concrete 1 × 1 grid with kernel size 1, sigma 1. -/
theorem claim_C6_witness :
    (SampleGrid.new_with_size 1 1).WF ∧
    ((SampleGrid.new_with_size 1 1).blur_samplegrid 1 1).gridmap =
      (SampleGrid.new_with_size 1 1).gridmap :=
  ⟨by decide,
    (claim_C6_blur_frame (SampleGrid.new_with_size 1 1) 1 1 (by decide)).2.2.1⟩

/-! ## Machinery: dimension preservation -/

theorem foldl_preserve {α β : Type} (P : α → Prop) (f : α → β → α)
    (hf : ∀ a b, P a → P (f a b)) : ∀ (L : List β) (a : α), P a → P (L.foldl f a)
  | [], _, ha => ha
  | b :: L, a, ha => foldl_preserve P f hf L (f a b) (hf a b ha)

theorem WF_setNode {g : SampleGrid} (x y : ℕ) (node : KalmanNode) (hwf : g.WF) :
    (g.setNode x y node).WF := by
  by_cases hxb : x < g.sample_grid.length
  · constructor
    · show (setNodeList g.sample_grid x y node).length = g.width
      rw [length_setNodeList, hwf.1]
    · intro row hrow
      have hrow' : row ∈ g.sample_grid.set x ((g.sample_grid.getD x []).set y node) := hrow
      rcases List.mem_or_eq_of_mem_set hrow' with hmem | heq
      · exact hwf.2 row hmem
      · rw [heq, List.length_set, List.getD_eq_getElem _ _ hxb]
        exact hwf.2 _ (List.getElem_mem hxb)
  · have hnoop : (g.setNode x y node).sample_grid = g.sample_grid := by
      show setNodeList g.sample_grid x y node = g.sample_grid
      rw [setNodeList, set_of_length_le _ _ _ (by omega)]
    constructor
    · rw [hnoop, hwf.1]
      rfl
    · intro row hrow
      rw [hnoop] at hrow
      exact hwf.2 row hrow

theorem goodDims_setNode {g : SampleGrid} (x y : ℕ) (node : KalmanNode) (hg : g.GoodDims) :
    (g.setNode x y node).GoodDims :=
  ⟨WF_setNode x y node hg.1, hg.2.1, hg.2.2.1, hg.2.2.2.1, hg.2.2.2.2⟩

theorem goodDims_new_with_size (w h : ℕ) : (SampleGrid.new_with_size w h).GoodDims := by
  refine ⟨⟨by simp [SampleGrid.new_with_size], ?_⟩, rfl, rfl, rfl, rfl⟩
  intro row hrow
  rw [List.eq_of_mem_replicate hrow]
  simp [SampleGrid.new_with_size]

theorem goodDims_init_gridmap_area {g : SampleGrid} (x y w h : ℕ) (hg : g.GoodDims) :
    (g.init_gridmap_area x y w h).GoodDims := by
  rw [init_gridmap_area_eq]
  exact ⟨hg.1, hg.2.1, hg.2.2.1, hg.2.2.2.1, hg.2.2.2.2⟩

theorem goodDims_init_ground_truth {g : SampleGrid} (hg : g.GoodDims) :
    g.init_ground_truth.GoodDims := by
  rw [init_ground_truth_eq]
  exact ⟨hg.1, hg.2.1, hg.2.2.1, hg.2.2.2.1, hg.2.2.2.2⟩

theorem goodDims_blur {g : SampleGrid} (size : ℕ) (sigma : ℚ) (hg : g.GoodDims) :
    (g.blur_samplegrid size sigma).GoodDims := by
  obtain ⟨s1, s2, s3, s4, s5, s6, s7⟩ :=
    blurFold_spec (fun c => mget (convolve2d (kalman_grid_states g.sample_grid)
        (gaussian_kernal size sigma) ConvResolve.Nearest) c.1 c.2)
      (areaCells 0 0 g.width g.height) g
  have hb : g.blur_samplegrid size sigma =
      blurFold (fun c => mget (convolve2d (kalman_grid_states g.sample_grid)
          (gaussian_kernal size sigma) ConvResolve.Nearest) c.1 c.2)
        (areaCells 0 0 g.width g.height) g := rfl
  rw [hb]
  refine ⟨⟨by rw [s5, hg.1.1, s3], ?_⟩, by rw [s1, s3]; exact hg.2.1,
    by rw [s1, s4]; exact hg.2.2.1, by rw [s2, s3]; exact hg.2.2.2.1,
    by rw [s2, s4]; exact hg.2.2.2.2⟩
  intro row hrow
  obtain ⟨i, hi, hrowi⟩ := List.getElem_of_mem hrow
  rw [← hrowi, ← List.getD_eq_getElem _ [] hi, s6 i, s4]
  have hi' : i < g.width := by
    rw [← hg.1.1]
    have := s5 ▸ hi
    exact this
  exact WF_row_length hg.1 hi'

theorem goodDims_sample_all {g : SampleGrid} (us : ℕ → ℕ → ℚ) (hg : g.GoodDims) :
    (g.sample_all us).GoodDims := by
  rw [sample_all_eq]
  exact ⟨hg.1, hg.2.1, hg.2.2.1, hg.2.2.2.1, hg.2.2.2.2⟩

theorem goodDims_update_sample {g : SampleGrid} (x y : ℕ) (r : ℚ) (hg : g.GoodDims) :
    (g.update_sample x y r).GoodDims :=
  goodDims_setNode x y _ hg

theorem goodDims_new_from_string (s : String) :
    (SampleGrid.new_from_string s).GoodDims := by
  apply goodDims_init_ground_truth
  refine foldl_preserve SampleGrid.GoodDims _ ?_ _ _ (goodDims_new_with_size _ _)
  intro a row ha
  refine foldl_preserve SampleGrid.GoodDims _ ?_ _ _ ha
  intro a2 ch ha2
  dsimp only
  split
  · exact goodDims_setNode _ _ _ ha2
  · exact ha2

theorem width_init_gridmap (g : SampleGrid) : g.init_gridmap.width = g.width := by
  show (g.init_gridmap_area 0 0 g.width g.height).width = g.width
  rw [init_gridmap_area_eq]

theorem height_init_gridmap (g : SampleGrid) : g.init_gridmap.height = g.height := by
  show (g.init_gridmap_area 0 0 g.width g.height).height = g.height
  rw [init_gridmap_area_eq]

theorem goodDims_new_from_grid (grid : List (List ℚ)) (gt : BitPackedGrid)
    (hrect : ∀ row ∈ grid, row.length = (grid.headD []).length)
    (hw : gt.width = grid.length) (hh : gt.height = (grid.headD []).length) :
    (SampleGrid.new_from_grid grid gt).elim True SampleGrid.GoodDims := by
  cases grid with
  | nil => trivial
  | cons g0 rest =>
    show SampleGrid.GoodDims
      ((SampleGrid.mk ((g0 :: rest).map (fun row =>
          row.map (fun state => KalmanNode.mk state SampleGrid.COVARIANCE)))
        (BitPackedGrid.new (g0 :: rest).length g0.length) gt
        (g0 :: rest).length g0.length).init_gridmap_area 0 0 (g0 :: rest).length g0.length)
    apply goodDims_init_gridmap_area
    refine ⟨⟨by simp, ?_⟩, rfl, rfl, hw, hh⟩
    intro row hrow
    obtain ⟨orig, horig, hmap⟩ := List.mem_map.mp hrow
    rw [← hmap, List.length_map]
    exact hrect orig horig

/-- C7 (amended): the dimension invariant (matrix outer extent = width,
inner extent = height, both bitmaps width × height) holds after
new_with_size, new_from_string and new_from_file unconditionally, and
after new_from_grid provided the belief matrix is rectangular and the
supplied ground-truth bitmap has matching dimensions (the constructor
performs no such check); every grid operation preserves the invariant. -/
theorem claim_C7_dims_amended :
    (∀ (grid : List (List ℚ)) (gt : BitPackedGrid),
      (∀ row ∈ grid, row.length = (grid.headD []).length) →
      gt.width = grid.length → gt.height = (grid.headD []).length →
      (SampleGrid.new_from_grid grid gt).elim True SampleGrid.GoodDims) ∧
    (∀ w h, (SampleGrid.new_with_size w h).GoodDims) ∧
    (∀ s, (SampleGrid.new_from_string s).GoodDims) ∧
    (∀ s, (SampleGrid.new_from_file s).GoodDims) ∧
    (∀ g : SampleGrid, g.GoodDims → ∀ x y w h, (g.init_gridmap_area x y w h).GoodDims) ∧
    (∀ g : SampleGrid, g.GoodDims → ∀ x y radius, (g.init_gridmap_radius x y radius).GoodDims) ∧
    (∀ g : SampleGrid, g.GoodDims → g.init_gridmap.GoodDims) ∧
    (∀ g : SampleGrid, g.GoodDims → g.init_ground_truth.GoodDims) ∧
    (∀ g : SampleGrid, g.GoodDims → ∀ size sigma, (g.blur_samplegrid size sigma).GoodDims) ∧
    (∀ g : SampleGrid, g.GoodDims → ∀ x y (u : ℚ), (g.sample x y u).GoodDims) ∧
    (∀ g : SampleGrid, g.GoodDims → ∀ us, (g.sample_all us).GoodDims) ∧
    (∀ g : SampleGrid, g.GoodDims → ∀ x y (r : ℚ), (g.update_sample x y r).GoodDims) :=
  ⟨goodDims_new_from_grid,
    goodDims_new_with_size,
    goodDims_new_from_string,
    fun s => goodDims_new_from_string s,
    fun _ hg x y w h => goodDims_init_gridmap_area x y w h hg,
    fun g hg x y radius => goodDims_init_gridmap_area (x - (radius + 1)) (y - (radius + 1))
      (((x + (radius + 1)).min g.width) - (x - (radius + 1)))
      (((y + (radius + 1)).min g.height) - (y - (radius + 1))) hg,
    fun g hg => goodDims_init_gridmap_area 0 0 g.width g.height hg,
    fun _ hg => goodDims_init_ground_truth hg,
    fun _ hg size sigma => goodDims_blur size sigma hg,
    fun _ hg _ _ _ => ⟨hg.1, hg.2.1, hg.2.2.1, hg.2.2.2.1, hg.2.2.2.2⟩,
    fun _ hg us => goodDims_sample_all us hg,
    fun _ hg x y r => goodDims_update_sample x y r hg⟩

/-- Counterexample to C7 as stated: new_from_grid accepts a ragged belief
matrix and a ground-truth bitmap of unrelated dimensions without any
check; at this input the constructed grid has width 2 and height 1 while
its ground-truth bitmap is 5 × 7 and its second matrix row has length 2. -/
theorem claim_C7_dims_counterexample :
    (SampleGrid.new_from_grid [[(1:ℚ)], [1, 1]] (BitPackedGrid.new 5 7)).map
        (fun g => (g.width, g.height, g.ground_truth.width, g.ground_truth.height,
          (g.sample_grid.getD 1 []).length)) = some (2, 1, 5, 7, 2) := by
  decide

/-- Witness for the amended C7 at concrete inputs. -/
theorem claim_C7_witness :
    (SampleGrid.new_from_grid [[(1:ℚ)]] (BitPackedGrid.new 1 1)).elim True
      SampleGrid.GoodDims ∧
    (SampleGrid.new_with_size 2 3).GoodDims ∧
    ((SampleGrid.new_with_size 2 3).update_sample 0 0 1).GoodDims :=
  ⟨claim_C7_dims_amended.1 [[(1:ℚ)]] (BitPackedGrid.new 1 1) (by decide) rfl rfl,
    claim_C7_dims_amended.2.1 2 3,
    claim_C7_dims_amended.2.2.2.2.2.2.2.2.2.2.2 (SampleGrid.new_with_size 2 3)
      (by decide) 0 0 1⟩

/-- C10: new_from_grid requires a non-empty belief matrix: the empty
outer vector reaches the out-of-range read of row 0 (the none branch of
the model); for every non-empty matrix the width is the number of rows
and the height the length of row 0. -/
theorem claim_C10_new_from_grid_empty :
    (∀ gt : BitPackedGrid, SampleGrid.new_from_grid [] gt = none) ∧
    (∀ (g0 : List ℚ) (rest : List (List ℚ)) (gt : BitPackedGrid),
      (SampleGrid.new_from_grid (g0 :: rest) gt).map (fun g => (g.width, g.height)) =
        some ((g0 :: rest).length, g0.length)) := by
  refine ⟨fun gt => rfl, ?_⟩
  intro g0 rest gt
  have h1 : SampleGrid.new_from_grid (g0 :: rest) gt =
      some ((SampleGrid.mk ((g0 :: rest).map (fun row =>
          row.map (fun state => KalmanNode.mk state SampleGrid.COVARIANCE)))
        (BitPackedGrid.new (g0 :: rest).length g0.length) gt
        (g0 :: rest).length g0.length).init_gridmap) := rfl
  rw [h1, Option.map_some', width_init_gridmap, height_init_gridmap]

/-- The spec's estimator update written directly as its three formula
lines (section 4.1), in binary32 arithmetic, for comparison with the
source's KalmanNode::update. -/
def kalmanSpecFormulas (s p m r : F32) : KalmanNode32 × F32 :=
  let gain := p.div (p.add r)
  let state := s.add (gain.mul (m.sub s))
  (⟨state, (F32.one.sub gain).mul p⟩, state)

/-- C1: KalmanNode::update computes gain = p / (p + r), state =
s + gain * (m - s), covariance = (1 - gain) * p and returns the new
state, all in binary32 arithmetic; on the literal fixture it maps
{state 60.0, covariance 225.0} under update(49.03, 25.0) to state 50.127
and covariance 22.500006, and that result under update(48.44, 25.0) to
state 49.327892 and covariance 11.842108. -/
theorem claim_C1_kalman_update_f32 :
    (∀ (node : KalmanNode32) (m r : F32),
      node.update m r = kalmanSpecFormulas node.state node.covariance m r) ∧
    (KalmanNode32.mk (F32.lit 60 0) (F32.lit 225 0)).update (F32.lit 4903 2) (F32.lit 25 0) =
      (KalmanNode32.mk (F32.lit 50127 3) (F32.lit 22500006 6), F32.lit 50127 3) ∧
    (KalmanNode32.mk (F32.lit 50127 3) (F32.lit 22500006 6)).update
        (F32.lit 4844 2) (F32.lit 25 0) =
      (KalmanNode32.mk (F32.lit 49327892 6) (F32.lit 11842108 6), F32.lit 49327892 6) := by
  have h60 : F32.lit 60 0 = ⟨15728640, 18⟩ := by decide
  have h225 : F32.lit 225 0 = ⟨14745600, 16⟩ := by decide
  have h4903 : F32.lit 4903 2 = ⟨12852920, 18⟩ := by decide
  have h25 : F32.lit 25 0 = ⟨13107200, 19⟩ := by decide
  have h50127 : F32.lit 50127 3 = ⟨13140492, 18⟩ := by decide
  have h225e : F32.lit 22500006 6 = ⟨11796483, 19⟩ := by decide
  have h4844 : F32.lit 4844 2 = ⟨12698255, 18⟩ := by decide
  have h4932 : F32.lit 49327892 6 = ⟨12931011, 18⟩ := by decide
  have h1184 : F32.lit 11842108 6 = ⟨12417350, 20⟩ := by decide
  refine ⟨fun node m r => rfl, ?_, ?_⟩
  · rw [h60, h225, h4903, h25, h50127, h225e]
    decide
  · rw [h50127, h225e, h4844, h25, h4932, h1184]
    decide

/-- C8: on the literal six-row map the ground-truth bitmap round-trips
through construction and rendering and the belief states at (0,0), (1,0),
(0,1) are 1.0, 1.0, 0.0 as the repository's own test asserts; but the
realization bitmap after new_from_string is still all-false-equivalent
(the constructor never synchronizes it), so its bits at (0,0) and (1,0)
are false where the test, and the claim, expect true. -/
theorem claim_C8_text_roundtrip_eval :
    (SampleGrid.new_from_string
        ".....\n@@.@.\n.@.@.\n.@.@.\n.....\n....@\n").ground_truth.print_cells =
      ".....\n@@.@.\n.@.@.\n.@.@.\n.....\n....@\n" ∧
    ((SampleGrid.new_from_string
        ".....\n@@.@.\n.@.@.\n.@.@.\n.....\n....@\n").getNode 0 0).state = 1 ∧
    ((SampleGrid.new_from_string
        ".....\n@@.@.\n.@.@.\n.@.@.\n.....\n....@\n").getNode 1 0).state = 1 ∧
    ((SampleGrid.new_from_string
        ".....\n@@.@.\n.@.@.\n.@.@.\n.....\n....@\n").getNode 0 1).state = 0 ∧
    (SampleGrid.new_from_string
        ".....\n@@.@.\n.@.@.\n.@.@.\n.....\n....@\n").gridmap.get_bit_value 0 0 = false ∧
    (SampleGrid.new_from_string
        ".....\n@@.@.\n.@.@.\n.@.@.\n.....\n....@\n").gridmap.get_bit_value 1 0 = false ∧
    (SampleGrid.new_from_string
        ".....\n@@.@.\n.@.@.\n.@.@.\n.....\n....@\n").gridmap.get_bit_value 0 1 = false := by
  refine ⟨by decide, by decide, by decide, by decide, by decide, by decide, by decide⟩

/-- C9: on the literal four-row map, synchronizing only the radius-2
neighborhood of (0,0) and then re-deriving ground truth leaves the
ground-truth rendering equal to the map while the realization bitmap
renders with exactly the touched clipped square synchronized and all
other cells still in their all-false construction state. -/
theorem claim_C9_radius_fixture :
    (SampleGrid.new_from_string "@....\n.....\n.....\n.....\n").gridmap.print_cells =
      "@@@@@\n@@@@@\n@@@@@\n@@@@@\n" ∧
    (((SampleGrid.new_from_string
        "@....\n.....\n.....\n.....\n").init_gridmap_radius 0 0 2).init_ground_truth).ground_truth.print_cells =
      "@....\n.....\n.....\n.....\n" ∧
    (((SampleGrid.new_from_string
        "@....\n.....\n.....\n.....\n").init_gridmap_radius 0 0 2).init_ground_truth).gridmap.print_cells =
      "@..@@\n...@@\n...@@\n@@@@@\n" := by
  refine ⟨by decide, by decide, by decide⟩
